import Mathlib

/-!
# usbController-radio-control: gamepad client and radio server

A shallow embedding of `src/clients/golangClient.go` (the joystick decoder and
button dispatcher) and of `src/server/radioServer.go` (station cycling, volume,
player process), followed by theorems about them.

Conventions of the embedding.
* Go's `uint8`, `uint32`, `int16` values are `Nat`/`Int` in their ranges; Go's
  `int` is taken to be 64 bits wide and its arithmetic wraps (`wrapInt`).
* A Go `map[uint8]T` is a partial function `Nat → Option T`; reading a missing
  key of a `map[uint8]bool` gives `false`.
* Everything outside the program (HTTP exchanges, child processes, the IPC
  helper, standard output and the log) is explicit state; what the outside
  world answers is an input of the function that asks.
-/

namespace GamepadClient

/-! ## Data model of the client -/

/-- The record read from the joystick device: `Time uint32`, `Value int16`,
`Type uint8` (the field `Type_`, since `Type` is a keyword of Lean), `Number uint8`. -/
structure JoystickEvent where
  Time : Nat
  Value : Int
  Type_ : Nat
  Number : Nat
  deriving DecidableEq, Repr

/-- What one HTTP exchange of `postRequest` can turn out to be. -/
inductive HttpOutcome where
  /-- The call `http.NewRequest` fails. -/
  | requestError (err : String)
  /-- The call `client.Do` fails. -/
  | doError (err : String)
  /-- The call `io.ReadAll` on the response body fails. -/
  | readError (err : String)
  /-- A response arrives and its body is read. -/
  | response (status : String) (statusCode : Nat) (body : String)
  deriving DecidableEq, Repr

/-- The world the client acts on: standard output, the outcomes the network
will give to the coming exchanges, and the URLs a POST was sent to. -/
structure World where
  stdout : List String
  http : List HttpOutcome
  posted : List String
  deriving DecidableEq, Repr

/-- A Go `func() error`: it acts on the world and returns `nil` (`none`) or an
error. -/
abbrev Handler := World → Option String × World

/-- The Go struct `GamepadShortcuts` (the `client` field lives in `World`). -/
structure GamepadShortcuts where
  devicePath : String
  buttonMappings : Nat → Option Handler
  buttonStates : Nat → Option Bool

/-- Reading `g.buttonStates[n]`: a missing key reads as `false`. -/
def GamepadShortcuts.pressed (g : GamepadShortcuts) (n : Nat) : Bool :=
  (g.buttonStates n).getD false

/-- The assignment `m[k] = v` on a Go map. -/
def mapSet {β : Type} (m : Nat → Option β) (k : Nat) (v : β) : Nat → Option β :=
  fun n => if n = k then some v else m n

/-- Printing one piece of text on standard output. -/
def World.print (w : World) (s : String) : World :=
  { w with stdout := w.stdout ++ [s] }

/-! ## Operations of the client -/

/-- The closure returned by `g.postRequest(url)`. -/
def postRequest (url : String) : Handler := fun w =>
  let outcome := w.http.headD (HttpOutcome.doError "connection refused")
  let w1 := { w with http := w.http.tail }
  match outcome with
  | HttpOutcome.requestError err => (some ("error creating request: " ++ err), w1)
  | HttpOutcome.doError err =>
      (some ("error making request: " ++ err), { w1 with posted := w1.posted ++ [url] })
  | HttpOutcome.readError err =>
      (some ("error reading response: " ++ err), { w1 with posted := w1.posted ++ [url] })
  | HttpOutcome.response status statusCode body =>
      let w2 := { w1 with posted := w1.posted ++ [url] }
      let w3 := w2.print
        ("Response from " ++ url ++ ":\nStatus: " ++ status ++ "\nBody: " ++ body ++ "\n")
      if statusCode ≠ 200 then
        (some ("unexpected status code: " ++ toString statusCode), w3)
      else
        (none, w3)

/-- The binding table built by `NewGamepadShortcuts`. -/
def defaultMappings : Nat → Option Handler
  | 0 => some (postRequest "http://localhost:8080/play")
  | 1 => some (postRequest "http://localhost:8080/next")
  | 2 => some (postRequest "http://localhost:8080/prev")
  | 3 => some (postRequest "http://localhost:8080/stop")
  | 6 => some (postRequest "http://localhost:8080/voldown")
  | 7 => some (postRequest "http://localhost:8080/volup")
  | _ => none

/-- The constructor `NewGamepadShortcuts(devicePath)`. -/
def NewGamepadShortcuts (devicePath : String) : GamepadShortcuts :=
  { devicePath := if devicePath = "" then "/dev/input/js0" else devicePath
    buttonMappings := defaultMappings
    buttonStates := fun _ => none }

/-- What one call of `processEvent` leaves behind: the receiver, the world, and
the identifiers whose handler was invoked during the call (in order). -/
structure Step where
  g : GamepadShortcuts
  world : World
  invoked : List Nat

/-- The method `(g *GamepadShortcuts) processEvent(event)`. -/
def processEvent (g : GamepadShortcuts) (w : World) (event : JoystickEvent) : Step :=
  if event.Type_ = 1 then
    match g.buttonMappings event.Number with
    | some handler =>
        let fired :=
          if event.Value = 1 ∧ ¬ (g.pressed event.Number = true) then
            let w1 := w.print ("Executing command for button " ++ toString event.Number ++ "\n")
            match handler w1 with
            | (some err, w2) => (w2.print ("Error executing command: " ++ err ++ "\n"), [event.Number])
            | (none, w2) => (w2, [event.Number])
          else
            (w, [])
        { g := { g with buttonStates := mapSet g.buttonStates event.Number (decide (event.Value = 1)) }
          world := fired.1
          invoked := fired.2 }
    | none => { g := g, world := w, invoked := [] }
  else
    { g := g, world := w, invoked := [] }

/-- Feeding a sequence of events to `processEvent` one by one, as the loop of
`Run` does; the invocations of all the calls are collected in order. -/
def processEvents (g : GamepadShortcuts) (w : World) : List JoystickEvent → Step
  | [] => { g := g, world := w, invoked := [] }
  | e :: es =>
      let s1 := processEvent g w e
      let s2 := processEvents s1.g s1.world es
      { s2 with invoked := s1.invoked ++ s2.invoked }

/-! ## The decoder -/

/-- The conversion `int16(u)` of a `uint16`: the two's-complement reading. -/
def toInt16 (u : Nat) : Int :=
  if u % 65536 < 32768 then ((u % 65536 : Nat) : Int) else ((u % 65536 : Nat) : Int) - 65536

/-- The field-by-field decoding `encoding/binary` does on the 8 bytes of a
record with `binary.LittleEndian`: `Uint32` for `Time`, `Uint16` converted to
`int16` for `Value`, one byte each for `Type` and `Number`. -/
def decodeRecord (b0 b1 b2 b3 b4 b5 b6 b7 : Nat) : JoystickEvent :=
  { Time := b0 ||| (b1 <<< 8) ||| (b2 <<< 16) ||| (b3 <<< 24)
    Value := toInt16 (b4 ||| (b5 <<< 8))
    Type_ := b6
    Number := b7 }

/-- The call `binary.Read(device, binary.LittleEndian, &event)` on the bytes the
device still holds: `io.ReadFull` of the 8 bytes of the struct, then the
decoding. It gives the event and the bytes left, or the error of the read:
`EOF` when no byte was left, `unexpected EOF` when the stream ends inside the
record. -/
def binaryRead (stream : List Nat) : Except String (JoystickEvent × List Nat) :=
  match stream with
  | b0 :: b1 :: b2 :: b3 :: b4 :: b5 :: b6 :: b7 :: rest =>
      Except.ok (decodeRecord b0 b1 b2 b3 b4 b5 b6 b7, rest)
  | [] => Except.error "EOF"
  | _ => Except.error "unexpected EOF"

/-- What `Run` leaves behind when it returns: its error, the receiver, the
world, the handler invocations, and the events it handed to `processEvent`. -/
structure RunResult where
  err : String
  g : GamepadShortcuts
  world : World
  invoked : List Nat
  events : List JoystickEvent

/-- The `for` loop of `Run`, with a bound on the number of iterations (`none`
when the bound is reached before the loop returns). -/
def readLoop : Nat → GamepadShortcuts → World → List Nat → Option RunResult
  | 0, _, _, _ => none
  | fuel + 1, g, w, stream =>
      match binaryRead stream with
      | Except.error err =>
          some { err := "error reading event: " ++ err, g := g, world := w,
                 invoked := [], events := [] }
      | Except.ok (event, rest) =>
          let s := processEvent g w event
          match readLoop fuel s.g s.world rest with
          | none => none
          | some r => some { r with invoked := s.invoked ++ r.invoked, events := event :: r.events }

/-- The name `Run` prints for a button. -/
def actionName : Nat → String
  | 0 => "Play"
  | 1 => "Next"
  | 2 => "Previous"
  | 3 => "Stop"
  | 6 => "Volume Down"
  | 7 => "Volume Up"
  | _ => ""

/-- The lines `Run` prints before opening the device. Go leaves the order of a
`range` over a map open; the keys are taken in increasing order here. -/
def printMappings (g : GamepadShortcuts) (w : World) : World :=
  let w1 := (w.print "Gamepad shortcut mapper running. Press Ctrl+C to exit.\n").print
    "Current mappings:\n"
  ((List.range 256).filter (fun n => (g.buttonMappings n).isSome)).foldl
    (fun acc button =>
      acc.print ("Button " ++ toString button ++ ": " ++ actionName button ++ "\n")) w1

/-- The method `(g *GamepadShortcuts) Run()`. The device is what `os.OpenFile`
gives: an error, or the bytes the device will deliver before it ends. -/
def Run (g : GamepadShortcuts) (w : World) (device : Except String (List Nat)) :
    Option RunResult :=
  let w1 := printMappings g w
  match device with
  | Except.error err =>
      some { err := "error opening device: " ++ err ++
                      "\nMake sure the device exists and you have permission to access it",
             g := g, world := w1, invoked := [], events := [] }
  | Except.ok stream => readLoop (stream.length / 8 + 1) g w1 stream

/-- A world in which nothing has happened and the network answers nothing. -/
def World.empty : World := { stdout := [], http := [], posted := [] }

/-- A world whose network answers `200 OK` to the next exchange. -/
def World.answering : World :=
  { stdout := [], http := [HttpOutcome.response "200 OK" 200 "ok"], posted := [] }

/-- The button event (Type 1) for identifier `n` with value `v`. -/
def buttonEvent (n : Nat) (v : Int) : JoystickEvent :=
  { Time := 0, Value := v, Type_ := 1, Number := n }

/-- The number of POST requests the world has received for a URL. -/
def World.postedTo (w : World) (url : String) : Nat :=
  w.posted.count url

/-- The worlds in which `http.NewRequest` does not fail in any coming exchange
(it cannot, for the method POST and the constant URLs of the table). -/
def World.buildsRequests (w : World) : Prop :=
  ∀ o ∈ w.http, ∀ err, o ≠ HttpOutcome.requestError err

/-! ## The claim side: the record layout -/

/-- The event a record of 8 bytes stands for, as the layout is written: 4 bytes
of little-endian unsigned time, 2 bytes of little-endian signed value, 1 byte of
kind, 1 byte of identifier. -/
def recordEvent (r : List Nat) : JoystickEvent :=
  { Time := r.getD 0 0 + 2 ^ 8 * r.getD 1 0 + 2 ^ 16 * r.getD 2 0 + 2 ^ 24 * r.getD 3 0
    Value :=
      if r.getD 4 0 + 2 ^ 8 * r.getD 5 0 < 2 ^ 15 then
        ((r.getD 4 0 + 2 ^ 8 * r.getD 5 0 : Nat) : Int)
      else
        ((r.getD 4 0 + 2 ^ 8 * r.getD 5 0 : Nat) : Int) - 2 ^ 16
    Type_ := r.getD 6 0
    Number := r.getD 7 0 }

/-! ## The claim side: maximal runs of presses -/

/-- The number of groups of a list of lists that are made of `true`. -/
def countPressed (runs : List (List Bool)) : Nat :=
  (runs.filter (fun run => run.head? = some true)).length

/-- The number of maximal runs of consecutive `true` in a list, as the words
say: the list is cut into its maximal runs of equal values (`List.splitBy`),
and the runs of `true` are counted. -/
def maximalRunsOfOnes (bs : List Bool) : Nat :=
  countPressed (bs.splitBy (fun a b => a == b))

/-- The same number by recursion: a run is counted where it ends, at a `true`
that is last or followed by `false`. -/
def maximalRuns : List Bool → Nat
  | [] => 0
  | false :: rest => maximalRuns rest
  | true :: rest => (if rest.head? = some true then 0 else 1) + maximalRuns rest

/-- The number of places where a run of `true` starts in a list that follows
an element `prev`. -/
def runStarts : Bool → List Bool → Nat
  | _, [] => 0
  | prev, b :: rest => (if b = true ∧ prev = false then 1 else 0) + runStarts b rest

/-- The press values (`Value == 1`) of the events whose `Number` is `i`, in
order. -/
def pressesOf (i : Nat) (events : List JoystickEvent) : List Bool :=
  (events.filter (fun e => e.Number = i)).map (fun e => decide (e.Value = 1))

end GamepadClient

namespace RadioServer

/-! ## Data model of the server -/

/-- The width of Go's `int` taken here. -/
def intBits : Nat := 64

/-- Wrapping an integer into the range of Go's `int`. -/
def wrapInt (x : Int) : Int :=
  (x + 2 ^ (intBits - 1)) % 2 ^ intBits - 2 ^ (intBits - 1)

/-- Go's `a % b` on `int`: a run-time panic when `b` is zero (`none`), else the
remainder of the truncated division. -/
def goRem (a b : Int) : Option Int :=
  if b = 0 then none else some (Int.tmod a b)

/-- Go's `xs[i]` on a slice: a run-time panic (`none`) when `i` is out of
range. -/
def goIndex {α : Type} (xs : List α) (i : Int) : Option α :=
  if 0 ≤ i then xs[i.toNat]? else none

/-- The Go struct `RadioStation`. -/
structure RadioStation where
  Name : String
  URL : String
  deriving DecidableEq, Repr

/-- An `*exec.Cmd`: its arguments and its `Process`, the pid of the child once
`Start` has succeeded and `nil` before. -/
structure Cmd where
  Args : List String
  Process : Option Nat
  deriving DecidableEq, Repr

/-- The package variables `mpvCmd`, `stations`, `currentIdx`, `currentVol`
together with the outside world: the child processes that are alive (pid and
arguments), the payloads `SendMPVCommand` was called with, the lines that
reached the IPC helper, and the log. -/
structure State where
  mpvCmd : Option Cmd
  stations : List RadioStation
  currentIdx : Int
  currentVol : Int
  live : List (Nat × List String)
  commands : List String
  ipc : List String
  log : List String
  deriving DecidableEq, Repr

/-- The package variables as declared, with a catalog, before any request. -/
def State.init (stations : List RadioStation) : State :=
  { mpvCmd := none, stations := stations, currentIdx := 0, currentVol := 50,
    live := [], commands := [], ipc := [], log := [] }

/-- The call `log.Println`/`log.Printf` (the message only). -/
def State.logLine (s : State) (msg : String) : State :=
  { s with log := s.log ++ [msg] }

/-- The call `Process.Kill()`: the process leaves the live set (and nothing
happens when it is not there; the error is not looked at). -/
def State.kill (s : State) (pid : Nat) : State :=
  { s with live := s.live.filter (fun p => p.1 ≠ pid) }

/-- The pid the system gives to a new child: one no live process has. -/
def freshPid (live : List (Nat × List String)) : Nat :=
  (live.map (fun p => p.1)).foldr max 0 + 1

/-- How a call ended: it returned its `error` (`none` for `nil`) or panicked. -/
inductive Outcome where
  | returned (err : Option String)
  | panicked (msg : String)
  deriving DecidableEq, Repr

/-- The state after a call and how the call ended. -/
structure Result where
  state : State
  outcome : Outcome
  deriving DecidableEq, Repr

/-- How the `socat` helper of `SendMPVCommand` behaves. -/
inductive SocatOutcome where
  | pipeError (err : String)
  | startError (err : String)
  | writeError (err : String)
  | waitError (err : String)
  | done
  deriving DecidableEq, Repr

/-! ## Operations of the server -/

/-- The arguments `StartMPV` gives to `exec.Command`. -/
def mpvArgs (url : String) : List String :=
  ["mpv", "--no-video", "--idle=yes", "--input-ipc-server=/tmp/mpv-socket", url]

/-- The function `StartMPV(url)`, called alone (the mutex is free). `spawn` is
what `mpvCmd.Start()` will answer: `none` when the child starts, an error
otherwise. -/
def StartMPV (spawn : Option String) (url : String) (s : State) : State × Option String :=
  let s1 :=
    match s.mpvCmd with
    | some cmd =>
        match cmd.Process with
        | some pid => (s.logLine "Stopping existing mpv process...").kill pid
        | none => s
    | none => s
  let s2 := s1.logLine ("Starting mpv with URL: " ++ url)
  match spawn with
  | some err =>
      ({ s2 with mpvCmd := some { Args := mpvArgs url, Process := none } },
        some ("failed to start mpv: " ++ err))
  | none =>
      let pid := freshPid s2.live
      ({ s2 with mpvCmd := some { Args := mpvArgs url, Process := some pid }
                 live := s2.live ++ [(pid, mpvArgs url)] }, none)

/-- The function `SendMPVCommand(command)`. -/
def SendMPVCommand (socat : SocatOutcome) (command : String) (s : State) :
    State × Option String :=
  let s1 := { s.logLine ("Sending command to mpv: " ++ command) with
              commands := s.commands ++ [command] }
  match socat with
  | SocatOutcome.pipeError err => (s1, some ("failed to create stdin pipe: " ++ err))
  | SocatOutcome.startError err => (s1, some ("failed to start socat: " ++ err))
  | SocatOutcome.writeError err => (s1, some ("failed to write to stdin: " ++ err))
  | SocatOutcome.waitError err =>
      ({ s1 with ipc := s1.ipc ++ [command ++ "\n"] }, some ("socat command failed: " ++ err))
  | SocatOutcome.done => ({ s1 with ipc := s1.ipc ++ [command ++ "\n"] }, none)

/-- The function `PlayNextStation()`. -/
def PlayNextStation (spawn : Option String) (s : State) : Result :=
  match goRem (wrapInt (s.currentIdx + 1)) (s.stations.length : Int) with
  | none => { state := s, outcome := Outcome.panicked "runtime error: integer divide by zero" }
  | some idx =>
      let s1 := { s with currentIdx := idx }
      match goIndex s1.stations s1.currentIdx with
      | none => { state := s1, outcome := Outcome.panicked "runtime error: index out of range" }
      | some station =>
          let r := StartMPV spawn station.URL (s1.logLine ("Playing next station: " ++ station.Name))
          { state := r.1, outcome := Outcome.returned r.2 }

/-- The function `PlayPrevStation()`. -/
def PlayPrevStation (spawn : Option String) (s : State) : Result :=
  match goRem (wrapInt (wrapInt (s.currentIdx - 1) + (s.stations.length : Int)))
      (s.stations.length : Int) with
  | none => { state := s, outcome := Outcome.panicked "runtime error: integer divide by zero" }
  | some idx =>
      let s1 := { s with currentIdx := idx }
      match goIndex s1.stations s1.currentIdx with
      | none => { state := s1, outcome := Outcome.panicked "runtime error: index out of range" }
      | some station =>
          let r := StartMPV spawn station.URL (s1.logLine ("Playing prev station: " ++ station.Name))
          { state := r.1, outcome := Outcome.returned r.2 }

/-- The payload `AdjustVolume` formats for a level. -/
def volumeCommand (level : Int) : String :=
  "\x7b\"command\": [\"set_property\", \"volume\", " ++ toString level ++ "]\x7d"

/-- The function `AdjustVolume(delta)`. -/
def AdjustVolume (socat : SocatOutcome) (delta : Int) (s : State) : State × Option String :=
  let v := wrapInt (s.currentVol + delta)
  let v1 := if v < 0 then 0 else if v > 100 then 100 else v
  let s1 := { s with currentVol := v1 }
  let s2 := s1.logLine ("Adjusting volume to: " ++ toString s1.currentVol)
  SendMPVCommand socat (volumeCommand s2.currentVol) s2

/-- Consecutive calls of `PlayNextStation`, one per answer of the spawn; the
sequence stops at the first call that panics. -/
def nextCalls : List (Option String) → State → Result
  | [], s => { state := s, outcome := Outcome.returned none }
  | spawn :: rest, s =>
      match (PlayNextStation spawn s).outcome with
      | Outcome.returned _ => nextCalls rest (PlayNextStation spawn s).state
      | Outcome.panicked msg =>
          { state := (PlayNextStation spawn s).state, outcome := Outcome.panicked msg }

/-- Consecutive calls of `AdjustVolume(delta)`, one per behaviour of the
helper. -/
def adjustCalls (delta : Int) : List SocatOutcome → State → State
  | [], s => s
  | socat :: rest, s => adjustCalls delta rest (AdjustVolume socat delta s).1

/-! ## The claim side: reading a payload back -/

/-- The number a non-empty run of decimal digits writes. -/
def readDecimal (cs : List Char) : Option Nat :=
  if cs ≠ [] ∧ cs.all Char.isDigit = true then
    some (cs.foldl (fun acc c => 10 * acc + (c.toNat - 48)) 0)
  else none

/-- The level a control-channel payload sets: the payload must be the JSON text
that opens with the command and the two strings `set_property`, `volume` and
closes the array and the object; the level is the decimal number in between. -/
def payloadLevel (payload : String) : Option Nat :=
  let opening := "\x7b\"command\": [\"set_property\", \"volume\", ".toList
  let closing := "]\x7d".toList
  if opening.isPrefixOf payload.toList = true ∧ closing.isSuffixOf payload.toList = true then
    readDecimal ((payload.toList.drop opening.length).take
      (payload.length - opening.length - closing.length))
  else none

/-- The catalog of the scenario: stations A and B. -/
def catalogAB : List RadioStation :=
  [{ Name := "A", URL := "u1" }, { Name := "B", URL := "u2" }]

/-- A state in which one child process (pid 1, playing `u1`) is live and held
in `mpvCmd`. -/
def playingState : State :=
  { State.init catalogAB with
    mpvCmd := some { Args := mpvArgs "u1", Process := some 1 }
    live := [(1, mpvArgs "u1")] }

end RadioServer

/-! # Theorems -/

namespace GamepadClient

/-! ## processEvent, one event -/

theorem processEvent_mappings (g : GamepadShortcuts) (w : World) (e : JoystickEvent) :
    (processEvent g w e).g.buttonMappings = g.buttonMappings := by
  unfold processEvent
  split
  · split <;> rfl
  · rfl

theorem processEvent_bound (g : GamepadShortcuts) (w : World) (e : JoystickEvent)
    (handler : Handler) (hkind : e.Type_ = 1) (hb : g.buttonMappings e.Number = some handler) :
    (processEvent g w e).g.buttonStates
        = mapSet g.buttonStates e.Number (decide (e.Value = 1)) ∧
      (processEvent g w e).invoked
        = if e.Value = 1 ∧ ¬ (g.pressed e.Number = true) then [e.Number] else [] := by
  unfold processEvent
  rw [if_pos hkind]
  constructor
  · simp only [hb]
  · simp only [hb]
    by_cases hc : e.Value = 1 ∧ ¬ (g.pressed e.Number = true)
    · simp only [if_pos hc]
      split <;> rfl
    · simp only [if_neg hc]

theorem processEvent_unbound (g : GamepadShortcuts) (w : World) (e : JoystickEvent)
    (hb : g.buttonMappings e.Number = none) :
    processEvent g w e = { g := g, world := w, invoked := [] } := by
  unfold processEvent
  split
  · simp only [hb]
  · rfl

theorem processEvent_non_button_aux (g : GamepadShortcuts) (w : World) (e : JoystickEvent)
    (hkind : e.Type_ ≠ 1) :
    (processEvent g w e).g.buttonStates = g.buttonStates ∧
      (processEvent g w e).invoked = [] ∧ (processEvent g w e).world = w := by
  unfold processEvent
  rw [if_neg hkind]
  exact ⟨rfl, rfl, rfl⟩

/-- C2: an event whose Type is not 1 invokes no action and leaves the receiver
(its button state map included) and the world as they were, whatever its Value
and Number and whatever the binding table. -/
theorem processEvent_non_button (g : GamepadShortcuts) (w : World) (e : JoystickEvent)
    (hkind : e.Type_ ≠ 1) :
    (processEvent g w e).invoked = [] ∧
      (processEvent g w e).g.buttonStates = g.buttonStates ∧
      (processEvent g w e).world = w := by
  unfold processEvent
  rw [if_neg hkind]
  exact ⟨rfl, rfl, rfl⟩

/-- Witness of C2: an axis event (Type 2) with Value 1 on the bound identifier 0. -/
theorem processEvent_non_button_witness :
    (processEvent (NewGamepadShortcuts "") World.empty
        { Time := 0, Value := 1, Type_ := 2, Number := 0 }).invoked = [] ∧
      (processEvent (NewGamepadShortcuts "") World.empty
        { Time := 0, Value := 1, Type_ := 2, Number := 0 }).g.buttonStates
        = (NewGamepadShortcuts "").buttonStates ∧
      (processEvent (NewGamepadShortcuts "") World.empty
        { Time := 0, Value := 1, Type_ := 2, Number := 0 }).world = World.empty :=
  processEvent_non_button (NewGamepadShortcuts "") World.empty
    { Time := 0, Value := 1, Type_ := 2, Number := 0 } (by decide)

/-- C8, as stated, fails: a button event with Value 1 for the unbound
identifier 5 leaves the recorded state of 5 not pressed. -/
theorem processEvent_records_value_counterexample :
    (processEvent (NewGamepadShortcuts "") World.empty
        { Time := 0, Value := 1, Type_ := 1, Number := 5 }).g.pressed 5
      ≠ decide (({ Time := 0, Value := 1, Type_ := 1, Number := 5 } : JoystickEvent).Value = 1) := by
  decide

/-- C8, amended: after a button event for a bound identifier n the recorded
state of n is (Value == 1) and every other identifier keeps its state; after a
button event for an unbound identifier the whole state map is unchanged. -/
theorem processEvent_records_value (g : GamepadShortcuts) (w : World) (e : JoystickEvent)
    (hkind : e.Type_ = 1) :
    ((g.buttonMappings e.Number).isSome = true →
        (processEvent g w e).g.buttonStates e.Number = some (decide (e.Value = 1)) ∧
        (processEvent g w e).g.pressed e.Number = decide (e.Value = 1) ∧
        ∀ m, m ≠ e.Number → (processEvent g w e).g.buttonStates m = g.buttonStates m) ∧
      ((g.buttonMappings e.Number).isSome = false →
        (processEvent g w e).g.buttonStates = g.buttonStates) := by
  constructor
  · intro hb
    obtain ⟨handler, hh⟩ := Option.isSome_iff_exists.mp hb
    have hst := (processEvent_bound g w e handler hkind hh).1
    refine ⟨?_, ?_, ?_⟩
    · rw [hst]; simp [mapSet]
    · unfold GamepadShortcuts.pressed; rw [hst]; simp [mapSet]
    · intro m hm; rw [hst]; simp [mapSet, hm]
  · intro hb
    have hn : g.buttonMappings e.Number = none := by
      cases h : g.buttonMappings e.Number with
      | none => rfl
      | some x => rw [h] at hb; simp at hb
    rw [processEvent_unbound g w e hn]

/-- Witness of amended C8: a press of the bound identifier 1. -/
theorem processEvent_records_value_witness :
    (((NewGamepadShortcuts "").buttonMappings 1).isSome = true →
        (processEvent (NewGamepadShortcuts "") World.empty
            { Time := 0, Value := 1, Type_ := 1, Number := 1 }).g.buttonStates 1
          = some (decide ((1 : Int) = 1)) ∧
        (processEvent (NewGamepadShortcuts "") World.empty
            { Time := 0, Value := 1, Type_ := 1, Number := 1 }).g.pressed 1
          = decide ((1 : Int) = 1) ∧
        ∀ m, m ≠ 1 →
          (processEvent (NewGamepadShortcuts "") World.empty
            { Time := 0, Value := 1, Type_ := 1, Number := 1 }).g.buttonStates m
          = (NewGamepadShortcuts "").buttonStates m) ∧
      (((NewGamepadShortcuts "").buttonMappings 1).isSome = false →
        (processEvent (NewGamepadShortcuts "") World.empty
            { Time := 0, Value := 1, Type_ := 1, Number := 1 }).g.buttonStates
          = (NewGamepadShortcuts "").buttonStates) :=
  processEvent_records_value (NewGamepadShortcuts "") World.empty
    { Time := 0, Value := 1, Type_ := 1, Number := 1 } rfl

/-- C10: with the table built by NewGamepadShortcuts and any button state, a
button event for an identifier other than 0, 1, 2, 3, 6, 7 invokes no action,
prints nothing, sends no request and changes nothing, whatever its Value. -/
theorem processEvent_no_binding (devicePath : String) (states : Nat → Option Bool)
    (w : World) (e : JoystickEvent) (_hkind : e.Type_ = 1)
    (hn : e.Number ∉ [0, 1, 2, 3, 6, 7]) :
    (processEvent { NewGamepadShortcuts devicePath with buttonStates := states } w e).invoked = [] ∧
      (processEvent { NewGamepadShortcuts devicePath with buttonStates := states } w e).world = w ∧
      (processEvent { NewGamepadShortcuts devicePath with buttonStates := states } w e).g.buttonStates
        = states := by
  have hb : ({ NewGamepadShortcuts devicePath with buttonStates := states } :
      GamepadShortcuts).buttonMappings e.Number = none := by
    simp only [NewGamepadShortcuts]
    simp only [List.mem_cons, List.mem_singleton, List.not_mem_nil, or_false, not_or] at hn
    obtain ⟨h0, h1, h2, h3, h6, h7⟩ := hn
    unfold defaultMappings
    split <;> first | rfl | omega
  rw [processEvent_unbound _ w e hb]
  exact ⟨rfl, rfl, rfl⟩

/-- Witness of C10: a press of identifier 5 while 5 is recorded as not pressed. -/
theorem processEvent_no_binding_witness :
    (processEvent { NewGamepadShortcuts "" with buttonStates := fun _ => none } World.empty
        { Time := 0, Value := 1, Type_ := 1, Number := 5 }).invoked = [] ∧
      (processEvent { NewGamepadShortcuts "" with buttonStates := fun _ => none } World.empty
        { Time := 0, Value := 1, Type_ := 1, Number := 5 }).world = World.empty ∧
      (processEvent { NewGamepadShortcuts "" with buttonStates := fun _ => none } World.empty
        { Time := 0, Value := 1, Type_ := 1, Number := 5 }).g.buttonStates = fun _ => none :=
  processEvent_no_binding "" (fun _ => none) World.empty
    { Time := 0, Value := 1, Type_ := 1, Number := 5 } rfl (by decide)

/-! ## processEvent, sequences of events -/

theorem processEvents_mappings (es : List JoystickEvent) (g : GamepadShortcuts) (w : World) :
    (processEvents g w es).g.buttonMappings = g.buttonMappings := by
  induction es generalizing g w with
  | nil => rfl
  | cons e es ih =>
      show (processEvents (processEvent g w e).g (processEvent g w e).world es).g.buttonMappings = _
      rw [ih, processEvent_mappings]

theorem isSome_eq_none {β : Type} {o o' : Option β} (h : o'.isSome = o.isSome) (ho : o = none) :
    o' = none := by
  subst ho
  cases o' with
  | none => rfl
  | some x => simp at h

theorem isSome_eq_some {β : Type} {o o' : Option β} (h : o'.isSome = o.isSome) (x : β)
    (ho : o = some x) : ∃ y, o' = some y := by
  subst ho
  cases o' with
  | none => simp at h
  | some y => exact ⟨y, rfl⟩

theorem processEvent_congr (g g' : GamepadShortcuts) (w w' : World) (e : JoystickEvent)
    (hst : g'.buttonStates = g.buttonStates)
    (hsame : ∀ n, (g'.buttonMappings n).isSome = (g.buttonMappings n).isSome) :
    (processEvent g' w' e).g.buttonStates = (processEvent g w e).g.buttonStates ∧
      (processEvent g' w' e).invoked = (processEvent g w e).invoked := by
  by_cases hkind : e.Type_ = 1
  · cases hb : g.buttonMappings e.Number with
    | none =>
        rw [processEvent_unbound g w e hb,
          processEvent_unbound g' w' e (isSome_eq_none (hsame e.Number) hb)]
        exact ⟨hst, rfl⟩
    | some handler =>
        obtain ⟨handler', hb'⟩ := isSome_eq_some (hsame e.Number) handler hb
        obtain ⟨h1, h2⟩ := processEvent_bound g w e handler hkind hb
        obtain ⟨h1', h2'⟩ := processEvent_bound g' w' e handler' hkind hb'
        have hp : g'.pressed e.Number = g.pressed e.Number := by
          unfold GamepadShortcuts.pressed; rw [hst]
        rw [h1, h2, h1', h2', hst, hp]
        exact ⟨rfl, rfl⟩
  · obtain ⟨h1, h2, _⟩ := processEvent_non_button_aux g w e hkind
    obtain ⟨h1', h2', _⟩ := processEvent_non_button_aux g' w' e hkind
    rw [h1, h2, h1', h2']
    exact ⟨hst, rfl⟩

theorem processEvents_congr (es : List JoystickEvent) (g g' : GamepadShortcuts) (w w' : World)
    (hst : g'.buttonStates = g.buttonStates)
    (hsame : ∀ n, (g'.buttonMappings n).isSome = (g.buttonMappings n).isSome) :
    (processEvents g' w' es).g.buttonStates = (processEvents g w es).g.buttonStates ∧
      (processEvents g' w' es).invoked = (processEvents g w es).invoked := by
  induction es generalizing g g' w w' with
  | nil => exact ⟨hst, rfl⟩
  | cons e es ih =>
      obtain ⟨h1, h2⟩ := processEvent_congr g g' w w' e hst hsame
      have hsame' : ∀ n, ((processEvent g' w' e).g.buttonMappings n).isSome
          = ((processEvent g w e).g.buttonMappings n).isSome := by
        intro n; rw [processEvent_mappings, processEvent_mappings]; exact hsame n
      obtain ⟨h3, h4⟩ := ih (processEvent g w e).g (processEvent g' w' e).g
        (processEvent g w e).world (processEvent g' w' e).world h1 hsame'
      constructor
      · exact h3
      · show (processEvent g' w' e).invoked ++ _ = (processEvent g w e).invoked ++ _
        rw [h2, h4]

/-- C7: for a button event on a bound identifier, processEvent always yields a
result (it has no failure to return), and the button state it leaves is the
state map with the identifier set to (Value == 1), whatever the bound action
does or returns; so two runs that differ only in the actions bound (same bound
identifiers, any outcomes, any worlds) leave the same button state and invoke
handlers for the same identifiers, for this event and for all that follow. -/
theorem processEvent_ignores_action_outcome (g g' : GamepadShortcuts) (w w' : World)
    (e : JoystickEvent) (rest : List JoystickEvent)
    (hkind : e.Type_ = 1) (hbound : (g.buttonMappings e.Number).isSome = true)
    (hst : g'.buttonStates = g.buttonStates)
    (hsame : ∀ n, (g'.buttonMappings n).isSome = (g.buttonMappings n).isSome) :
    (processEvent g w e).g.buttonStates
        = mapSet g.buttonStates e.Number (decide (e.Value = 1)) ∧
      (processEvent g' w' e).g.buttonStates = (processEvent g w e).g.buttonStates ∧
      (processEvents g' w' (e :: rest)).g.buttonStates
        = (processEvents g w (e :: rest)).g.buttonStates ∧
      (processEvents g' w' (e :: rest)).invoked = (processEvents g w (e :: rest)).invoked := by
  obtain ⟨handler, hh⟩ := Option.isSome_iff_exists.mp hbound
  exact ⟨(processEvent_bound g w e handler hkind hh).1,
    (processEvent_congr g g' w w' e hst hsame).1,
    processEvents_congr (e :: rest) g g' w w' hst hsame⟩

/-- Witness of C7: the same press of identifier 0 (followed by a release and a
second press) with a network that answers 200 (the action returns nil) and with
one that refuses the connection (the action returns an error). -/
theorem processEvent_ignores_action_outcome_witness :
    (processEvent (NewGamepadShortcuts "") World.answering (buttonEvent 0 1)).g.buttonStates
        = mapSet (NewGamepadShortcuts "").buttonStates (buttonEvent 0 1).Number
            (decide ((buttonEvent 0 1).Value = 1)) ∧
      (processEvent (NewGamepadShortcuts "") World.empty (buttonEvent 0 1)).g.buttonStates
        = (processEvent (NewGamepadShortcuts "") World.answering (buttonEvent 0 1)).g.buttonStates ∧
      (processEvents (NewGamepadShortcuts "") World.empty
          (buttonEvent 0 1 :: [buttonEvent 0 0, buttonEvent 0 1])).g.buttonStates
        = (processEvents (NewGamepadShortcuts "") World.answering
          (buttonEvent 0 1 :: [buttonEvent 0 0, buttonEvent 0 1])).g.buttonStates ∧
      (processEvents (NewGamepadShortcuts "") World.empty
          (buttonEvent 0 1 :: [buttonEvent 0 0, buttonEvent 0 1])).invoked
        = (processEvents (NewGamepadShortcuts "") World.answering
          (buttonEvent 0 1 :: [buttonEvent 0 0, buttonEvent 0 1])).invoked :=
  processEvent_ignores_action_outcome (NewGamepadShortcuts "") (NewGamepadShortcuts "")
    World.answering World.empty (buttonEvent 0 1) [buttonEvent 0 0, buttonEvent 0 1]
    rfl rfl rfl (fun _ => rfl)

/-! ## Presses and runs -/

theorem runStarts_maximalRuns (bs : List Bool) :
    runStarts false bs = maximalRuns bs ∧
      runStarts true bs + (if bs.head? = some true then 1 else 0) = maximalRuns bs := by
  induction bs with
  | nil => simp [runStarts, maximalRuns]
  | cons b rest ih =>
      obtain ⟨ih1, ih2⟩ := ih
      cases b with
      | false =>
          simp only [runStarts, maximalRuns]
          simp [ih1]
      | true =>
          simp only [runStarts, maximalRuns]
          by_cases h : rest.head? = some true
          · simp only [h, if_true] at ih2 ⊢
            simp
            omega
          · simp only [h, if_false] at ih2 ⊢
            simp
            omega

theorem processEvent_other (g : GamepadShortcuts) (w : World) (e : JoystickEvent) (i : Nat)
    (hne : e.Number ≠ i) :
    (processEvent g w e).g.pressed i = g.pressed i ∧ (processEvent g w e).invoked.count i = 0 := by
  by_cases hkind : e.Type_ = 1
  · cases hb : g.buttonMappings e.Number with
    | none =>
        rw [processEvent_unbound g w e hb]
        exact ⟨rfl, rfl⟩
    | some handler =>
        obtain ⟨h1, h2⟩ := processEvent_bound g w e handler hkind hb
        constructor
        · unfold GamepadShortcuts.pressed
          rw [h1]
          simp [mapSet, Ne.symm hne]
        · rw [h2]
          split
          · rw [List.count_cons, List.count_nil]
            simp [hne]
          · rfl
  · obtain ⟨h1, h2, _⟩ := processEvent_non_button_aux g w e hkind
    constructor
    · unfold GamepadShortcuts.pressed; rw [h1]
    · rw [h2]; rfl

theorem count_invoked (es : List JoystickEvent) (g : GamepadShortcuts) (w : World) (i : Nat)
    (hbound : (g.buttonMappings i).isSome = true) (hkind : ∀ e ∈ es, e.Type_ = 1) :
    (processEvents g w es).invoked.count i = runStarts (g.pressed i) (pressesOf i es) := by
  induction es generalizing g w with
  | nil => rfl
  | cons e es ih =>
      have hb' : ((processEvent g w e).g.buttonMappings i).isSome = true := by
        rw [processEvent_mappings]; exact hbound
      have hrec := ih (processEvent g w e).g (processEvent g w e).world hb'
        (fun x hx => hkind x (List.mem_cons_of_mem e hx))
      have hcount : (processEvents g w (e :: es)).invoked.count i
          = (processEvent g w e).invoked.count i
            + (processEvents (processEvent g w e).g (processEvent g w e).world es).invoked.count i := by
        show ((processEvent g w e).invoked ++ _).count i = _
        rw [List.count_append]
      rw [hcount, hrec]
      by_cases hn : e.Number = i
      · subst hn
        obtain ⟨handler, hh⟩ := Option.isSome_iff_exists.mp hbound
        obtain ⟨h1, h2⟩ :=
          processEvent_bound g w e handler (hkind e (List.mem_cons_self e es)) hh
        have hp : (processEvent g w e).g.pressed e.Number = decide (e.Value = 1) := by
          unfold GamepadShortcuts.pressed; rw [h1]; simp [mapSet]
        have hpo : pressesOf e.Number (e :: es)
            = decide (e.Value = 1) :: pressesOf e.Number es := by
          simp [pressesOf]
        rw [hpo, hp, h2]
        simp only [runStarts]
        by_cases hv : e.Value = 1
        · cases hpr : g.pressed e.Number <;> simp [hv]
        · simp [hv]
      · obtain ⟨h1, h2⟩ := processEvent_other g w e i hn
        have hpo : pressesOf i (e :: es) = pressesOf i es := by
          simp [pressesOf, hn]
        rw [hpo, h1, h2]
        omega

theorem countPressed_reverse (runs : List (List Bool)) :
    countPressed runs.reverse = countPressed runs := by
  unfold countPressed
  rw [List.filter_reverse, List.length_reverse]

theorem countPressed_cons (run : List Bool) (runs : List (List Bool)) :
    countPressed (run :: runs) = (if run.head? = some true then 1 else 0) + countPressed runs := by
  unfold countPressed
  by_cases h : run.head? = some true
  · rw [List.filter_cons_of_pos (by simpa using h), if_pos h, List.length_cons]
    omega
  · rw [List.filter_cons_of_neg (by simpa using h), if_neg h]
    omega

theorem head_reverse_cons (a : Bool) (g : List Bool) (hg : ∀ x ∈ g, x = a) :
    (a :: g).reverse.head? = some a := by
  rw [List.head?_reverse]
  cases hgl : (a :: g).getLast? with
  | none => simp at hgl
  | some x =>
      have hx : x ∈ a :: g := List.mem_of_getLast?_eq_some hgl
      rcases List.mem_cons.mp hx with h | h
      · rw [h]
      · rw [hg x h]

theorem countPressed_loop (l : List Bool) (a : Bool) (g : List Bool) (gs : List (List Bool))
    (hg : ∀ x ∈ g, x = a) :
    countPressed (List.splitBy.loop (fun a b => a == b) l a g gs)
      = countPressed gs + maximalRuns (a :: l) := by
  induction l generalizing a g gs with
  | nil =>
      rw [List.splitBy.loop, countPressed_reverse, countPressed_cons, head_reverse_cons a g hg]
      cases a
      · simp [maximalRuns]
      · simp [maximalRuns]; omega
  | cons b l ih =>
      rw [List.splitBy.loop]
      by_cases hab : a = b
      · subst hab
        have hR : (a == a) = true := by simp
        simp only [hR]
        rw [ih a (a :: g) gs (by
          intro x hx
          rcases List.mem_cons.mp hx with h | h
          · exact h
          · exact hg x h)]
        cases a <;> simp [maximalRuns]
      · have hR : (a == b) = false := by simpa using hab
        simp only [hR]
        rw [ih b [] ((a :: g).reverse :: gs) (by intro x hx; simp at hx), countPressed_cons,
          head_reverse_cons a g hg]
        cases a <;> cases b <;> simp [maximalRuns] at hab ⊢
        omega

theorem maximalRuns_eq_split (bs : List Bool) : maximalRuns bs = maximalRunsOfOnes bs := by
  unfold maximalRunsOfOnes
  cases bs with
  | nil => rfl
  | cons a l =>
      rw [List.splitBy, countPressed_loop l a [] [] (by intro x hx; simp at hx)]
      simp [countPressed]

theorem count_singleton_ite (n i : Nat) : [n].count i = if n = i then 1 else 0 := by
  rw [List.count_cons, List.count_nil]
  by_cases h : n = i <;> simp [h]

theorem processEvent_measure (g : GamepadShortcuts) (w : World) (e : JoystickEvent) (i : Nat)
    (m : World → Nat) (Inv : World → Prop)
    (hprintInv : ∀ w s, Inv w → Inv (w.print s))
    (hprint : ∀ w s, m (w.print s) = m w)
    (hhandlers : ∀ j hj, g.buttonMappings j = some hj → ∀ w, Inv w →
      Inv (hj w).2 ∧ m (hj w).2 = m w + (if j = i then 1 else 0))
    (hInv : Inv w) :
    Inv (processEvent g w e).world ∧
      m (processEvent g w e).world = m w + (processEvent g w e).invoked.count i := by
  by_cases hkind : e.Type_ = 1
  · cases hb : g.buttonMappings e.Number with
    | none =>
        rw [processEvent_unbound g w e hb]
        exact ⟨hInv, rfl⟩
    | some handler =>
        obtain ⟨hI, hm⟩ := hhandlers e.Number handler hb
          (w.print ("Executing command for button " ++ toString e.Number ++ "\n"))
          (hprintInv _ _ hInv)
        rw [hprint] at hm
        unfold processEvent
        rw [if_pos hkind]
        simp only [hb]
        by_cases hc : e.Value = 1 ∧ ¬ (g.pressed e.Number = true)
        · simp only [if_pos hc]
          rcases hres : handler
            (w.print ("Executing command for button " ++ toString e.Number ++ "\n"))
            with ⟨_ | err, w2⟩
          · rw [hres] at hI hm
            simp only [count_singleton_ite]
            exact ⟨hI, hm⟩
          · rw [hres] at hI hm
            simp only [count_singleton_ite]
            exact ⟨hprintInv _ _ hI, by rw [hprint]; exact hm⟩
        · simp only [if_neg hc]
          exact ⟨hInv, rfl⟩
  · obtain ⟨_, h2, h3⟩ := processEvent_non_button_aux g w e hkind
    rw [h2, h3]
    exact ⟨hInv, rfl⟩

theorem processEvents_measure (es : List JoystickEvent) (g : GamepadShortcuts) (w : World)
    (i : Nat) (m : World → Nat) (Inv : World → Prop)
    (hprintInv : ∀ w s, Inv w → Inv (w.print s))
    (hprint : ∀ w s, m (w.print s) = m w)
    (hhandlers : ∀ j hj, g.buttonMappings j = some hj → ∀ w, Inv w →
      Inv (hj w).2 ∧ m (hj w).2 = m w + (if j = i then 1 else 0))
    (hInv : Inv w) :
    m (processEvents g w es).world = m w + (processEvents g w es).invoked.count i := by
  induction es generalizing g w with
  | nil => rfl
  | cons e es ih =>
      obtain ⟨hI, hm⟩ := processEvent_measure g w e i m Inv hprintInv hprint hhandlers hInv
      have hh : ∀ j hj, (processEvent g w e).g.buttonMappings j = some hj → ∀ w, Inv w →
          Inv (hj w).2 ∧ m (hj w).2 = m w + (if j = i then 1 else 0) := by
        intro j hj hjb
        rw [processEvent_mappings] at hjb
        exact hhandlers j hj hjb
      have hrec := ih (processEvent g w e).g (processEvent g w e).world hh hI
      show m (processEvents (processEvent g w e).g (processEvent g w e).world es).world
        = m w + ((processEvent g w e).invoked
            ++ (processEvents (processEvent g w e).g (processEvent g w e).world es).invoked).count i
      rw [hrec, hm, List.count_append]
      omega

theorem postRequest_posted (url : String) (w : World) (hw : w.buildsRequests) :
    (postRequest url w).2.buildsRequests ∧ (postRequest url w).2.posted = w.posted ++ [url] := by
  unfold World.buildsRequests at hw ⊢
  rcases hhttp : w.http with _ | ⟨o, rest⟩
  · simp [postRequest, hhttp]
  · have htail : ∀ x ∈ rest, ∀ err, x ≠ HttpOutcome.requestError err := by
      intro x hx
      exact hw x (by rw [hhttp]; exact List.mem_cons_of_mem o hx)
    have ho : ∀ err, o ≠ HttpOutcome.requestError err := hw o (by rw [hhttp]; simp)
    cases o with
    | requestError err => exact absurd rfl (ho err)
    | doError err => exact ⟨by simpa [postRequest, hhttp] using htail, by simp [postRequest, hhttp]⟩
    | readError err => exact ⟨by simpa [postRequest, hhttp] using htail, by simp [postRequest, hhttp]⟩
    | response status statusCode body =>
        by_cases hs : statusCode = 200
        · exact ⟨by simpa [postRequest, hhttp, hs, World.print] using htail,
            by simp [postRequest, hhttp, hs, World.print]⟩
        · exact ⟨by simpa [postRequest, hhttp, hs, World.print] using htail,
            by simp [postRequest, hhttp, hs, World.print]⟩

theorem defaultMappings_next (j : Nat) (hj : Handler) (hjb : defaultMappings j = some hj)
    (w : World) (hw : w.buildsRequests) :
    (hj w).2.buildsRequests ∧
      (hj w).2.postedTo "http://localhost:8080/next"
        = w.postedTo "http://localhost:8080/next" + (if j = 1 then 1 else 0) := by
  unfold defaultMappings at hjb
  split at hjb
  case h_7 => exact absurd hjb (by simp)
  all_goals
    obtain rfl := Option.some.inj hjb
    refine ⟨(postRequest_posted _ w hw).1, ?_⟩
    unfold World.postedTo
    rw [(postRequest_posted _ w hw).2, List.count_append, List.count_cons, List.count_nil]
    simp

/-- C1: from a button state in which the bound identifier i is not pressed, and
for a sequence of button events fed one by one, the action of i is invoked as
many times as there are maximal runs of consecutive Value == 1 among the events
whose Number is i: that is the number of entries for i in the record of
invocations, and it is the amount by which the run raises any quantity of the
world that one application of the action of i raises by one and that nothing
else (printing, the actions of other identifiers) changes. -/
theorem invocations_eq_maximal_runs (g : GamepadShortcuts) (w : World) (i : Nat)
    (es : List JoystickEvent) (m : World → Nat) (Inv : World → Prop)
    (hreleased : g.pressed i = false)
    (hbound : (g.buttonMappings i).isSome = true) (hkind : ∀ e ∈ es, e.Type_ = 1)
    (hInv : Inv w)
    (hprintInv : ∀ w s, Inv w → Inv (w.print s))
    (hprint : ∀ w s, m (w.print s) = m w)
    (hhandlers : ∀ j hj, g.buttonMappings j = some hj → ∀ w, Inv w →
      Inv (hj w).2 ∧ m (hj w).2 = m w + (if j = i then 1 else 0)) :
    (processEvents g w es).invoked.count i = maximalRunsOfOnes (pressesOf i es) ∧
      m (processEvents g w es).world = m w + maximalRunsOfOnes (pressesOf i es) := by
  have hcount : (processEvents g w es).invoked.count i = maximalRunsOfOnes (pressesOf i es) := by
    rw [count_invoked es g w i hbound hkind, hreleased, ← maximalRuns_eq_split]
    exact (runStarts_maximalRuns (pressesOf i es)).1
  refine ⟨hcount, ?_⟩
  rw [processEvents_measure es g w i m Inv hprintInv hprint hhandlers hInv, hcount]

/-- Witness of C1: for identifier 1 (bound to the POST to /next), press, hold,
a press of identifier 0 in between, hold, release, press: two runs, two entries
in the record of invocations, two POSTs to /next. -/
theorem invocations_eq_maximal_runs_witness :
    ((processEvents (NewGamepadShortcuts "") World.empty
          [buttonEvent 1 1, buttonEvent 1 1, buttonEvent 0 1, buttonEvent 1 1, buttonEvent 1 0,
          buttonEvent 1 1]).invoked.count 1
        = maximalRunsOfOnes (pressesOf 1
          [buttonEvent 1 1, buttonEvent 1 1, buttonEvent 0 1, buttonEvent 1 1, buttonEvent 1 0,
          buttonEvent 1 1]) ∧
      (processEvents (NewGamepadShortcuts "") World.empty
          [buttonEvent 1 1, buttonEvent 1 1, buttonEvent 0 1, buttonEvent 1 1, buttonEvent 1 0,
          buttonEvent 1 1]).world.postedTo "http://localhost:8080/next"
        = World.empty.postedTo "http://localhost:8080/next" + maximalRunsOfOnes (pressesOf 1
          [buttonEvent 1 1, buttonEvent 1 1, buttonEvent 0 1, buttonEvent 1 1, buttonEvent 1 0,
          buttonEvent 1 1])) ∧
      pressesOf 1
        [buttonEvent 1 1, buttonEvent 1 1, buttonEvent 0 1, buttonEvent 1 1, buttonEvent 1 0,
          buttonEvent 1 1] = [true, true, true, false, true] ∧
      maximalRunsOfOnes [true, true, true, false, true] = 2 ∧
      (processEvents (NewGamepadShortcuts "") World.empty
          [buttonEvent 1 1, buttonEvent 1 1, buttonEvent 0 1, buttonEvent 1 1, buttonEvent 1 0,
          buttonEvent 1 1]).invoked = [1, 0, 1] ∧
      (processEvents (NewGamepadShortcuts "") World.empty
          [buttonEvent 1 1, buttonEvent 1 1, buttonEvent 0 1, buttonEvent 1 1, buttonEvent 1 0,
          buttonEvent 1 1]).world.posted
        = ["http://localhost:8080/next", "http://localhost:8080/play",
            "http://localhost:8080/next"] :=
  ⟨invocations_eq_maximal_runs (NewGamepadShortcuts "") World.empty 1
      [buttonEvent 1 1, buttonEvent 1 1, buttonEvent 0 1, buttonEvent 1 1, buttonEvent 1 0,
          buttonEvent 1 1]
      (fun w => w.postedTo "http://localhost:8080/next") World.buildsRequests
      rfl rfl (by decide) (by intro o ho; simp [World.empty] at ho)
      (fun _ _ h => h) (fun _ _ => rfl) defaultMappings_next,
    by decide, by decide, by decide, by decide⟩

/-! ## The decoder -/

theorem or_shift_eq_add (lo hi i : Nat) (h : lo < 2 ^ i) : lo ||| (hi <<< i) = lo + 2 ^ i * hi := by
  rw [Nat.shiftLeft_eq, Nat.mul_comm hi, Nat.lor_comm, ← Nat.mul_add_lt_is_or h, Nat.add_comm]

theorem decodeRecord_eq (b0 b1 b2 b3 b4 b5 b6 b7 : Nat)
    (h0 : b0 < 256) (h1 : b1 < 256) (h2 : b2 < 256) (h4 : b4 < 256) (h5 : b5 < 256) :
    decodeRecord b0 b1 b2 b3 b4 b5 b6 b7 = recordEvent [b0, b1, b2, b3, b4, b5, b6, b7] := by
  have e1 : b0 ||| (b1 <<< 8) = b0 + 2 ^ 8 * b1 := or_shift_eq_add b0 b1 8 (by omega)
  have e2 : (b0 + 2 ^ 8 * b1) ||| (b2 <<< 16) = b0 + 2 ^ 8 * b1 + 2 ^ 16 * b2 :=
    or_shift_eq_add _ b2 16 (by omega)
  have e3 : (b0 + 2 ^ 8 * b1 + 2 ^ 16 * b2) ||| (b3 <<< 24)
      = b0 + 2 ^ 8 * b1 + 2 ^ 16 * b2 + 2 ^ 24 * b3 := or_shift_eq_add _ b3 24 (by omega)
  have e4 : b4 ||| (b5 <<< 8) = b4 + 2 ^ 8 * b5 := or_shift_eq_add b4 b5 8 (by omega)
  have hu : (b4 + 2 ^ 8 * b5) % 65536 = b4 + 2 ^ 8 * b5 := Nat.mod_eq_of_lt (by omega)
  unfold decodeRecord recordEvent toInt16
  rw [e1, e2, e3, e4, hu]
  simp only [List.getD_cons_zero, List.getD_cons_succ]
  norm_num

theorem binaryRead_record (r rest : List Nat) (hlen : r.length = 8) (hb : ∀ b ∈ r, b < 256) :
    binaryRead (r ++ rest) = Except.ok (recordEvent r, rest) := by
  rcases r with _ | ⟨b0, _ | ⟨b1, _ | ⟨b2, _ | ⟨b3, _ | ⟨b4, _ | ⟨b5, _ | ⟨b6, _ | ⟨b7, _ | ⟨b8, r⟩⟩⟩⟩⟩⟩⟩⟩⟩ <;>
    simp at hlen
  have h0 := hb b0 (by simp)
  have h1 := hb b1 (by simp)
  have h2 := hb b2 (by simp)
  have h4 := hb b4 (by simp)
  have h5 := hb b5 (by simp)
  show Except.ok (decodeRecord b0 b1 b2 b3 b4 b5 b6 b7, rest) = _
  rw [decodeRecord_eq b0 b1 b2 b3 b4 b5 b6 b7 h0 h1 h2 h4 h5]

theorem binaryRead_short (tail : List Nat) (hlen : tail.length < 8) :
    binaryRead tail = Except.error (if tail = [] then "EOF" else "unexpected EOF") := by
  rcases tail with _ | ⟨b0, _ | ⟨b1, _ | ⟨b2, _ | ⟨b3, _ | ⟨b4, _ | ⟨b5, _ | ⟨b6, _ | ⟨b7, r⟩⟩⟩⟩⟩⟩⟩⟩ <;>
    first
    | rfl
    | (simp at hlen; omega)

theorem readLoop_records (records : List (List Nat)) (tail : List Nat) (g : GamepadShortcuts)
    (w : World) (fuel : Nat) (hfuel : records.length < fuel)
    (hrec : ∀ r ∈ records, r.length = 8 ∧ ∀ b ∈ r, b < 256) (htail : tail.length < 8) :
    ∃ res, readLoop fuel g w (records.flatten ++ tail) = some res ∧
      res.err = "error reading event: " ++ (if tail = [] then "EOF" else "unexpected EOF") ∧
      res.events = records.map recordEvent ∧
      res.invoked = (processEvents g w (records.map recordEvent)).invoked ∧
      res.g.buttonStates = (processEvents g w (records.map recordEvent)).g.buttonStates ∧
      res.world = (processEvents g w (records.map recordEvent)).world := by
  induction records generalizing g w fuel with
  | nil =>
      obtain ⟨n, rfl⟩ : ∃ n, fuel = n + 1 := ⟨fuel - 1, by simp at hfuel; omega⟩
      refine ⟨{ err := "error reading event: " ++ (if tail = [] then "EOF" else "unexpected EOF"),
                g := g, world := w, invoked := [], events := [] }, ?_, rfl, rfl, rfl, rfl, rfl⟩
      simp only [List.flatten_nil, List.nil_append, readLoop, binaryRead_short tail htail]
  | cons r rs ih =>
      obtain ⟨n, rfl⟩ : ∃ n, fuel = n + 1 := ⟨fuel - 1, by simp at hfuel; omega⟩
      obtain ⟨hr8, hrb⟩ := hrec r (List.mem_cons_self r rs)
      have hread : binaryRead ((r :: rs).flatten ++ tail)
          = Except.ok (recordEvent r, rs.flatten ++ tail) := by
        rw [List.flatten_cons, List.append_assoc]
        exact binaryRead_record r _ hr8 hrb
      obtain ⟨res, h1, h2, h3, h4, h5, h6⟩ :=
        ih (processEvent g w (recordEvent r)).g (processEvent g w (recordEvent r)).world n
          (by simp at hfuel; omega) (fun x hx => hrec x (List.mem_cons_of_mem r hx))
      refine ⟨{ res with invoked := (processEvent g w (recordEvent r)).invoked ++ res.invoked,
                         events := recordEvent r :: res.events }, ?_, h2, ?_, ?_, h5, h6⟩
      · simp only [readLoop, hread, h1]
      · show recordEvent r :: res.events = _
        rw [h3]; rfl
      · show (processEvent g w (recordEvent r)).invoked ++ res.invoked = _
        rw [h4]; rfl

/-- C9: a successful read takes exactly the 8 bytes of one record and yields
the event of the layout (Time from bytes 0..3, little-endian; Value from bytes
4..5, little-endian and signed; Type from byte 6; Number from byte 7); on a
stream made of k records followed by fewer than 8 bytes, Run returns after
handing exactly the k events of the records, in order, to processEvent, with
the read error EOF when nothing follows the records and unexpected EOF when the
stream ends inside a record, and no event is made of the partial record. -/
theorem Run_decodes_records (g : GamepadShortcuts) (w : World) (records : List (List Nat))
    (tail : List Nat) (hrec : ∀ r ∈ records, r.length = 8 ∧ ∀ b ∈ r, b < 256)
    (htail : tail.length < 8) :
    (∀ r ∈ records, ∀ rest, binaryRead (r ++ rest) = Except.ok (recordEvent r, rest)) ∧
      ∃ res, Run g w (Except.ok (records.flatten ++ tail)) = some res ∧
        res.events = records.map recordEvent ∧
        res.events.length = records.length ∧
        res.err = "error reading event: " ++ (if tail = [] then "EOF" else "unexpected EOF") ∧
        res.invoked
          = (processEvents g (printMappings g w) (records.map recordEvent)).invoked ∧
        res.g.buttonStates
          = (processEvents g (printMappings g w) (records.map recordEvent)).g.buttonStates := by
  constructor
  · intro r hr rest
    exact binaryRead_record r rest (hrec r hr).1 (hrec r hr).2
  · have hlen : ∀ rs : List (List Nat), (∀ r ∈ rs, r.length = 8 ∧ ∀ b ∈ r, b < 256) →
        rs.flatten.length = 8 * rs.length := by
      intro rs
      induction rs with
      | nil => intro _; rfl
      | cons r rs ih =>
          intro h
          rw [List.flatten_cons, List.length_append, ih (fun x hx => h x (List.mem_cons_of_mem r hx)),
            (h r (List.mem_cons_self r rs)).1, List.length_cons]
          omega
    have hfuel : records.length < (records.flatten ++ tail).length / 8 + 1 := by
      rw [List.length_append, hlen records hrec]
      omega
    obtain ⟨res, h1, h2, h3, h4, h5, _⟩ :=
      readLoop_records records tail g (printMappings g w) _ hfuel hrec htail
    refine ⟨res, h1, h3, ?_, h2, h4, h5⟩
    rw [h3, List.length_map]

/-- Witness of C9: two records (a press of button 1 at time 0x04030201, and an
axis event with the value -2) followed by three bytes of a third record. -/
theorem Run_decodes_records_witness :
    ((∀ r ∈ [[1, 2, 3, 4, 1, 0, 1, 1], [0, 0, 0, 0, 254, 255, 2, 0]], ∀ rest,
        binaryRead (r ++ rest) = Except.ok (recordEvent r, rest)) ∧
      ∃ res, Run (NewGamepadShortcuts "") World.empty
          (Except.ok ([[1, 2, 3, 4, 1, 0, 1, 1], [0, 0, 0, 0, 254, 255, 2, 0]].flatten ++ [9, 9, 9]))
          = some res ∧
        res.events
          = [[1, 2, 3, 4, 1, 0, 1, 1], [0, 0, 0, 0, 254, 255, 2, 0]].map recordEvent ∧
        res.events.length = [[1, 2, 3, 4, 1, 0, 1, 1], [0, 0, 0, 0, 254, 255, 2, 0]].length ∧
        res.err = "error reading event: "
          ++ (if [9, 9, 9] = ([] : List Nat) then "EOF" else "unexpected EOF") ∧
        res.invoked
          = (processEvents (NewGamepadShortcuts "")
              (printMappings (NewGamepadShortcuts "") World.empty)
              ([[1, 2, 3, 4, 1, 0, 1, 1], [0, 0, 0, 0, 254, 255, 2, 0]].map recordEvent)).invoked ∧
        res.g.buttonStates
          = (processEvents (NewGamepadShortcuts "")
              (printMappings (NewGamepadShortcuts "") World.empty)
              ([[1, 2, 3, 4, 1, 0, 1, 1], [0, 0, 0, 0, 254, 255, 2, 0]].map recordEvent)).g.buttonStates) ∧
      [[1, 2, 3, 4, 1, 0, 1, 1], [0, 0, 0, 0, 254, 255, 2, 0]].map recordEvent
        = [{ Time := 67305985, Value := 1, Type_ := 1, Number := 1 },
            { Time := 0, Value := -2, Type_ := 2, Number := 0 }] :=
  ⟨Run_decodes_records (NewGamepadShortcuts "") World.empty
    [[1, 2, 3, 4, 1, 0, 1, 1], [0, 0, 0, 0, 254, 255, 2, 0]] [9, 9, 9]
    (by decide) (by decide), by decide⟩

end GamepadClient

namespace RadioServer

/-! ## Machine integers -/

theorem wrapInt_eq (x : Int) (hlo : -2 ^ 63 ≤ x) (hhi : x < 2 ^ 63) : wrapInt x = x := by
  unfold wrapInt intBits
  have h : (x + 2 ^ (64 - 1)) % 2 ^ 64 = x + 2 ^ (64 - 1) :=
    Int.emod_eq_of_lt (by norm_num; omega) (by norm_num; omega)
  rw [h]
  omega

theorem goRem_eq (a n : Int) (ha : 0 ≤ a) (hn : 0 < n) : goRem a n = some (a % n) := by
  unfold goRem
  rw [if_neg (by omega), Int.tmod_eq_emod ha (by omega)]

theorem goIndex_eq {α : Type} (xs : List α) (i : Int) (h0 : 0 ≤ i) (h1 : i < xs.length) :
    ∃ x, xs[i.toNat]? = some x ∧ goIndex xs i = some x := by
  have hlt : i.toNat < xs.length := by omega
  refine ⟨xs[i.toNat], List.getElem?_eq_getElem hlt, ?_⟩
  unfold goIndex
  rw [if_pos h0, List.getElem?_eq_getElem hlt]

/-! ## StartMPV -/

theorem StartMPV_frame (spawn : Option String) (url : String) (s : State) :
    (StartMPV spawn url s).1.currentIdx = s.currentIdx ∧
      (StartMPV spawn url s).1.stations = s.stations ∧
      (StartMPV spawn url s).1.currentVol = s.currentVol ∧
      (StartMPV spawn url s).1.mpvCmd.map Cmd.Args = some (mpvArgs url) := by
  unfold StartMPV
  cases spawn <;> rcases s.mpvCmd with _ | ⟨args, _ | pid⟩ <;> exact ⟨rfl, rfl, rfl, rfl⟩

/-! ## Station cycling -/

theorem PlayNextStation_spec (spawn : Option String) (s : State)
    (hbig : s.stations.length < 2 ^ 62) (h0 : 0 ≤ s.currentIdx)
    (h1 : s.currentIdx < s.stations.length) :
    ∃ station err,
      s.stations[((s.currentIdx + 1) % (s.stations.length : Int)).toNat]? = some station ∧
      (PlayNextStation spawn s).outcome = Outcome.returned err ∧
      (PlayNextStation spawn s).state.currentIdx = (s.currentIdx + 1) % (s.stations.length : Int) ∧
      (PlayNextStation spawn s).state.stations = s.stations ∧
      (PlayNextStation spawn s).state.mpvCmd.map Cmd.Args = some (mpvArgs station.URL) := by
  have hN : (0 : Int) < (s.stations.length : Int) := by omega
  have hbig' : (s.stations.length : Int) < 2 ^ 62 := by exact_mod_cast hbig
  have hw : wrapInt (s.currentIdx + 1) = s.currentIdx + 1 := wrapInt_eq _ (by omega) (by omega)
  have hr := goRem_eq (s.currentIdx + 1) (s.stations.length : Int) (by omega) hN
  have hlo : 0 ≤ (s.currentIdx + 1) % (s.stations.length : Int) := Int.emod_nonneg _ (by omega)
  have hhi : (s.currentIdx + 1) % (s.stations.length : Int) < (s.stations.length : Int) :=
    Int.emod_lt_of_pos _ hN
  obtain ⟨station, hst, hix⟩ := goIndex_eq s.stations _ hlo hhi
  refine ⟨station, (StartMPV spawn station.URL
    (({ s with currentIdx := (s.currentIdx + 1) % (s.stations.length : Int) } : State).logLine
      ("Playing next station: " ++ station.Name))).2, hst, ?_⟩
  have hrun : PlayNextStation spawn s =
      { state := (StartMPV spawn station.URL
          (({ s with currentIdx := (s.currentIdx + 1) % (s.stations.length : Int) } : State).logLine
            ("Playing next station: " ++ station.Name))).1
        outcome := Outcome.returned (StartMPV spawn station.URL
          (({ s with currentIdx := (s.currentIdx + 1) % (s.stations.length : Int) } : State).logLine
            ("Playing next station: " ++ station.Name))).2 } := by
    unfold PlayNextStation
    rw [hw, hr]
    simp only [hix]
  rw [hrun]
  obtain ⟨f1, f2, _, f4⟩ := StartMPV_frame spawn station.URL
    (({ s with currentIdx := (s.currentIdx + 1) % (s.stations.length : Int) } : State).logLine
      ("Playing next station: " ++ station.Name))
  exact ⟨rfl, f1, f2, f4⟩

theorem PlayPrevStation_spec (spawn : Option String) (s : State)
    (hbig : s.stations.length < 2 ^ 62) (h0 : 0 ≤ s.currentIdx)
    (h1 : s.currentIdx < s.stations.length) :
    ∃ station err,
      s.stations[((s.currentIdx - 1 + (s.stations.length : Int))
        % (s.stations.length : Int)).toNat]? = some station ∧
      (PlayPrevStation spawn s).outcome = Outcome.returned err ∧
      (PlayPrevStation spawn s).state.currentIdx
        = (s.currentIdx - 1 + (s.stations.length : Int)) % (s.stations.length : Int) ∧
      (PlayPrevStation spawn s).state.stations = s.stations ∧
      (PlayPrevStation spawn s).state.mpvCmd.map Cmd.Args = some (mpvArgs station.URL) := by
  have hN : (0 : Int) < (s.stations.length : Int) := by omega
  have hbig' : (s.stations.length : Int) < 2 ^ 62 := by exact_mod_cast hbig
  have hw1 : wrapInt (s.currentIdx - 1) = s.currentIdx - 1 := wrapInt_eq _ (by omega) (by omega)
  have hw : wrapInt (s.currentIdx - 1 + (s.stations.length : Int))
      = s.currentIdx - 1 + (s.stations.length : Int) := wrapInt_eq _ (by omega) (by omega)
  have hr := goRem_eq (s.currentIdx - 1 + (s.stations.length : Int)) (s.stations.length : Int)
    (by omega) hN
  have hlo : 0 ≤ (s.currentIdx - 1 + (s.stations.length : Int)) % (s.stations.length : Int) :=
    Int.emod_nonneg _ (by omega)
  have hhi : (s.currentIdx - 1 + (s.stations.length : Int)) % (s.stations.length : Int)
      < (s.stations.length : Int) := Int.emod_lt_of_pos _ hN
  obtain ⟨station, hst, hix⟩ := goIndex_eq s.stations _ hlo hhi
  refine ⟨station, (StartMPV spawn station.URL
    (({ s with currentIdx := (s.currentIdx - 1 + (s.stations.length : Int))
          % (s.stations.length : Int) } : State).logLine
      ("Playing prev station: " ++ station.Name))).2, hst, ?_⟩
  have hrun : PlayPrevStation spawn s =
      { state := (StartMPV spawn station.URL
          (({ s with currentIdx := (s.currentIdx - 1 + (s.stations.length : Int))
                % (s.stations.length : Int) } : State).logLine
            ("Playing prev station: " ++ station.Name))).1
        outcome := Outcome.returned (StartMPV spawn station.URL
          (({ s with currentIdx := (s.currentIdx - 1 + (s.stations.length : Int))
                % (s.stations.length : Int) } : State).logLine
            ("Playing prev station: " ++ station.Name))).2 } := by
    unfold PlayPrevStation
    rw [hw1, hw, hr]
    simp only [hix]
  rw [hrun]
  obtain ⟨f1, f2, _, f4⟩ := StartMPV_frame spawn station.URL
    (({ s with currentIdx := (s.currentIdx - 1 + (s.stations.length : Int))
          % (s.stations.length : Int) } : State).logLine
      ("Playing prev station: " ++ station.Name))
  exact ⟨rfl, f1, f2, f4⟩

theorem nextCalls_spec (spawns : List (Option String)) (s : State)
    (hbig : s.stations.length < 2 ^ 62) (h0 : 0 ≤ s.currentIdx)
    (h1 : s.currentIdx < s.stations.length) :
    (nextCalls spawns s).state.currentIdx
        = (s.currentIdx + (spawns.length : Int)) % (s.stations.length : Int) ∧
      ∃ err, (nextCalls spawns s).outcome = Outcome.returned err := by
  induction spawns generalizing s with
  | nil =>
      refine ⟨?_, none, rfl⟩
      show s.currentIdx = _
      simp only [List.length_nil, Int.Nat.cast_ofNat_Int, Int.add_zero]
      exact (Int.emod_eq_of_lt h0 h1).symm
  | cons spawn rest ih =>
      obtain ⟨station, err, _, ho, hi, hs, _⟩ := PlayNextStation_spec spawn s hbig h0 h1
      have hN : (0 : Int) < (s.stations.length : Int) := by omega
      have hstep : nextCalls (spawn :: rest) s = nextCalls rest (PlayNextStation spawn s).state := by
        simp only [nextCalls, ho]
      rw [hstep]
      have hlo : 0 ≤ (PlayNextStation spawn s).state.currentIdx := by
        rw [hi]; exact Int.emod_nonneg _ (by omega)
      have hhi : (PlayNextStation spawn s).state.currentIdx
          < ((PlayNextStation spawn s).state.stations.length : Int) := by
        rw [hi, hs]; exact Int.emod_lt_of_pos _ hN
      obtain ⟨k1, k2⟩ := ih (PlayNextStation spawn s).state (by rw [hs]; exact hbig) hlo hhi
      refine ⟨?_, k2⟩
      rw [k1, hi, hs, Int.emod_add_emod]
      congr 1
      simp only [List.length_cons]
      push_cast
      omega

/-- C3: on a catalog of N >= 1 stations (N below 2^62, as the length of any
slice of stations is) with the index i in [0, N), PlayNextStation returns with
the index at (i+1) mod N and PlayPrevStation with the index at (i-1+N) mod N,
both again in [0, N), each having handed the url of the station at the new
index to StartMPV, whatever the spawn answers; and from index 0, N consecutive
PlayNextStation calls all return and leave the index at 0. -/
theorem station_cycling (s : State) (spawn : Option String) (spawns : List (Option String))
    (_hN : 1 ≤ s.stations.length) (hbig : s.stations.length < 2 ^ 62)
    (h0 : 0 ≤ s.currentIdx) (h1 : s.currentIdx < s.stations.length) :
    ((PlayNextStation spawn s).state.currentIdx = (s.currentIdx + 1) % (s.stations.length : Int) ∧
        0 ≤ (PlayNextStation spawn s).state.currentIdx ∧
        (PlayNextStation spawn s).state.currentIdx < (s.stations.length : Int) ∧
        (∃ err, (PlayNextStation spawn s).outcome = Outcome.returned err) ∧
        ∃ station,
          s.stations[((s.currentIdx + 1) % (s.stations.length : Int)).toNat]? = some station ∧
          (PlayNextStation spawn s).state.mpvCmd.map Cmd.Args = some (mpvArgs station.URL)) ∧
      ((PlayPrevStation spawn s).state.currentIdx
          = (s.currentIdx - 1 + (s.stations.length : Int)) % (s.stations.length : Int) ∧
        0 ≤ (PlayPrevStation spawn s).state.currentIdx ∧
        (PlayPrevStation spawn s).state.currentIdx < (s.stations.length : Int) ∧
        (∃ err, (PlayPrevStation spawn s).outcome = Outcome.returned err) ∧
        ∃ station,
          s.stations[((s.currentIdx - 1 + (s.stations.length : Int))
            % (s.stations.length : Int)).toNat]? = some station ∧
          (PlayPrevStation spawn s).state.mpvCmd.map Cmd.Args = some (mpvArgs station.URL)) ∧
      (s.currentIdx = 0 → spawns.length = s.stations.length →
        (nextCalls spawns s).state.currentIdx = 0 ∧
        ∃ err, (nextCalls spawns s).outcome = Outcome.returned err) := by
  have hN : (0 : Int) < (s.stations.length : Int) := by omega
  refine ⟨?_, ?_, ?_⟩
  · obtain ⟨station, err, hst, ho, hi, _, ha⟩ := PlayNextStation_spec spawn s hbig h0 h1
    refine ⟨hi, ?_, ?_, ⟨err, ho⟩, station, hst, ha⟩
    · rw [hi]; exact Int.emod_nonneg _ (by omega)
    · rw [hi]; exact Int.emod_lt_of_pos _ hN
  · obtain ⟨station, err, hst, ho, hi, _, ha⟩ := PlayPrevStation_spec spawn s hbig h0 h1
    refine ⟨hi, ?_, ?_, ⟨err, ho⟩, station, hst, ha⟩
    · rw [hi]; exact Int.emod_nonneg _ (by omega)
    · rw [hi]; exact Int.emod_lt_of_pos _ hN
  · intro hz hlen
    obtain ⟨k1, k2⟩ := nextCalls_spec spawns s hbig h0 h1
    refine ⟨?_, k2⟩
    rw [k1, hz, hlen, Int.zero_add, Int.emod_self]

/-- Witness of C3, on the scenario: catalog [A, B] at index 0; the first next
selects B (index 1, url u2), the second wraps to A (index 0, url u1), also when
the second spawn fails. -/
theorem station_cycling_witness :
    (((PlayNextStation none (State.init catalogAB)).state.currentIdx
          = ((State.init catalogAB).currentIdx + 1) % ((State.init catalogAB).stations.length : Int) ∧
        0 ≤ (PlayNextStation none (State.init catalogAB)).state.currentIdx ∧
        (PlayNextStation none (State.init catalogAB)).state.currentIdx < ((State.init catalogAB).stations.length : Int) ∧
        (∃ err, (PlayNextStation none (State.init catalogAB)).outcome = Outcome.returned err) ∧
        ∃ station,
          (State.init catalogAB).stations[(((State.init catalogAB).currentIdx + 1) % ((State.init catalogAB).stations.length : Int)).toNat]? = some station ∧
          (PlayNextStation none (State.init catalogAB)).state.mpvCmd.map Cmd.Args = some (mpvArgs station.URL)) ∧
      ((PlayPrevStation none (State.init catalogAB)).state.currentIdx
          = ((State.init catalogAB).currentIdx - 1 + ((State.init catalogAB).stations.length : Int)) % ((State.init catalogAB).stations.length : Int) ∧
        0 ≤ (PlayPrevStation none (State.init catalogAB)).state.currentIdx ∧
        (PlayPrevStation none (State.init catalogAB)).state.currentIdx < ((State.init catalogAB).stations.length : Int) ∧
        (∃ err, (PlayPrevStation none (State.init catalogAB)).outcome = Outcome.returned err) ∧
        ∃ station,
          (State.init catalogAB).stations[(((State.init catalogAB).currentIdx - 1 + ((State.init catalogAB).stations.length : Int))
            % ((State.init catalogAB).stations.length : Int)).toNat]? = some station ∧
          (PlayPrevStation none (State.init catalogAB)).state.mpvCmd.map Cmd.Args = some (mpvArgs station.URL)) ∧
      ((State.init catalogAB).currentIdx = 0 → [none, some "mpv not found"].length = (State.init catalogAB).stations.length →
        (nextCalls [none, some "mpv not found"] (State.init catalogAB)).state.currentIdx = 0 ∧
        ∃ err, (nextCalls [none, some "mpv not found"] (State.init catalogAB)).outcome = Outcome.returned err)) ∧
      (PlayNextStation none (State.init catalogAB)).state.currentIdx = 1 ∧
      (PlayNextStation none (State.init catalogAB)).state.mpvCmd.map Cmd.Args = some (mpvArgs "u2") ∧
      (PlayNextStation (some "mpv not found") (PlayNextStation none (State.init catalogAB)).state).state.currentIdx = 0 ∧
      (PlayNextStation (some "mpv not found") (PlayNextStation none (State.init catalogAB)).state).state.mpvCmd.map
          Cmd.Args = some (mpvArgs "u1") ∧
      (PlayPrevStation none (State.init catalogAB)).state.currentIdx = 1 :=
  ⟨station_cycling (State.init catalogAB) none [none, some "mpv not found"] (by decide) (by decide) (by decide)
    (by decide), by decide, by decide, by decide, by decide, by decide⟩

/-! ## The empty catalog -/

/-- C4, the code at an empty catalog: PlayNextStation and PlayPrevStation do
not return an error, they panic on the remainder by the length 0; the state is
untouched, so no player process is started. -/
theorem empty_catalog_panics :
    ∀ spawn : Option String,
      PlayNextStation spawn (State.init [])
          = { state := State.init [],
              outcome := Outcome.panicked "runtime error: integer divide by zero" } ∧
        PlayPrevStation spawn (State.init [])
          = { state := State.init [],
              outcome := Outcome.panicked "runtime error: integer divide by zero" } ∧
        (PlayNextStation spawn (State.init [])).state.live = [] ∧
        (PlayPrevStation spawn (State.init [])).state.live = [] := by
  intro spawn
  exact ⟨rfl, rfl, rfl, rfl⟩

/-! ## Volume -/

theorem AdjustVolume_spec (socat : SocatOutcome) (d : Int) (s : State)
    (hlo : -2 ^ 63 ≤ s.currentVol + d) (hhi : s.currentVol + d < 2 ^ 63) :
    (AdjustVolume socat d s).1.currentVol
        = (if s.currentVol + d < 0 then 0 else if s.currentVol + d > 100 then 100
            else s.currentVol + d) ∧
      (AdjustVolume socat d s).1.commands
        = s.commands ++ [volumeCommand (if s.currentVol + d < 0 then 0
            else if s.currentVol + d > 100 then 100 else s.currentVol + d)] := by
  unfold AdjustVolume
  rw [wrapInt_eq _ hlo hhi]
  unfold SendMPVCommand
  cases socat <;> exact ⟨rfl, rfl⟩

theorem adjustCalls_up (socats : List SocatOutcome) (s : State)
    (h0 : 0 ≤ s.currentVol) (h1 : s.currentVol ≤ 100) :
    (adjustCalls 10 socats s).currentVol = min 100 (s.currentVol + 10 * (socats.length : Int)) := by
  induction socats generalizing s with
  | nil =>
      show s.currentVol = _
      simp only [List.length_nil, Int.Nat.cast_ofNat_Int, Int.mul_zero, Int.add_zero]
      omega
  | cons socat rest ih =>
      have hv := (AdjustVolume_spec socat 10 s (by omega) (by omega)).1
      show (adjustCalls 10 rest (AdjustVolume socat 10 s).1).currentVol = _
      rw [ih _ (by rw [hv]; split_ifs <;> omega) (by rw [hv]; split_ifs <;> omega), hv]
      simp only [List.length_cons]
      push_cast
      split_ifs <;> omega

theorem adjustCalls_down (socats : List SocatOutcome) (s : State)
    (h0 : 0 ≤ s.currentVol) (h1 : s.currentVol ≤ 100) :
    (adjustCalls (-10) socats s).currentVol
      = max 0 (s.currentVol - 10 * (socats.length : Int)) := by
  induction socats generalizing s with
  | nil =>
      show s.currentVol = _
      simp only [List.length_nil, Int.Nat.cast_ofNat_Int, Int.mul_zero, Int.sub_zero]
      omega
  | cons socat rest ih =>
      have hv := (AdjustVolume_spec socat (-10) s (by omega) (by omega)).1
      show (adjustCalls (-10) rest (AdjustVolume socat (-10) s).1).currentVol = _
      rw [ih _ (by rw [hv]; split_ifs <;> omega) (by rw [hv]; split_ifs <;> omega), hv]
      simp only [List.length_cons]
      push_cast
      split_ifs <;> omega

set_option maxRecDepth 100000 in
theorem payloadLevel_volumeCommand :
    ∀ n : Nat, n < 101 → payloadLevel (volumeCommand (Int.ofNat n)) = some n := by
  decide

/-- C5: with the level v in [0, 100] and a delta d such that v + d fits the
machine int, AdjustVolume(d) stores v + d clamped to [0, 100] and calls
SendMPVCommand with one payload, the JSON text that sets the volume property,
whose number read back as a decimal is exactly the stored level, whatever the
helper does; so from 50, k calls of AdjustVolume(+10) leave min(100, 50 + 10k)
and k calls of AdjustVolume(-10) leave max(0, 50 - 10k). -/
theorem AdjustVolume_clamps (socat : SocatOutcome) (d : Int) (s : State)
    (socats : List SocatOutcome)
    (h0 : 0 ≤ s.currentVol) (h1 : s.currentVol ≤ 100)
    (hlo : -2 ^ 63 ≤ s.currentVol + d) (hhi : s.currentVol + d < 2 ^ 63) :
    (AdjustVolume socat d s).1.currentVol
        = (if s.currentVol + d < 0 then 0 else if s.currentVol + d > 100 then 100
            else s.currentVol + d) ∧
      (AdjustVolume socat d s).1.currentVol = max 0 (min 100 (s.currentVol + d)) ∧
      (AdjustVolume socat d s).1.commands
        = s.commands ++ [volumeCommand (AdjustVolume socat d s).1.currentVol] ∧
      (∃ payload, (AdjustVolume socat d s).1.commands = s.commands ++ [payload] ∧
        payloadLevel payload = some (AdjustVolume socat d s).1.currentVol.toNat ∧
        ((AdjustVolume socat d s).1.currentVol.toNat : Int)
          = (AdjustVolume socat d s).1.currentVol) ∧
      (s.currentVol = 50 →
        (adjustCalls 10 socats s).currentVol = min 100 (50 + 10 * (socats.length : Int)) ∧
        (adjustCalls (-10) socats s).currentVol = max 0 (50 - 10 * (socats.length : Int))) := by
  obtain ⟨hv, hc⟩ := AdjustVolume_spec socat d s hlo hhi
  have hrange : 0 ≤ (AdjustVolume socat d s).1.currentVol ∧
      (AdjustVolume socat d s).1.currentVol ≤ 100 := by
    rw [hv]; split_ifs <;> omega
  have hnat : ((AdjustVolume socat d s).1.currentVol.toNat : Int)
      = (AdjustVolume socat d s).1.currentVol := Int.toNat_of_nonneg hrange.1
  refine ⟨hv, ?_, ?_, ?_, ?_⟩
  · rw [hv]; split_ifs <;> omega
  · rw [hc, hv]
  · refine ⟨volumeCommand (AdjustVolume socat d s).1.currentVol, by rw [hc, hv], ?_, hnat⟩
    have hlt : (AdjustVolume socat d s).1.currentVol.toNat < 101 := by omega
    have hp := payloadLevel_volumeCommand _ hlt
    rw [Int.ofNat_eq_coe, hnat] at hp
    exact hp
  · intro h50
    have hu := adjustCalls_up socats s h0 h1
    have hd := adjustCalls_down socats s h0 h1
    rw [h50] at hu hd
    exact ⟨hu, hd⟩

/-- Witness of C5: from the initial level 50, a -20 step stores 30 and sends
the payload of level 30, a +60 step saturates at 100 with the payload of level
100, six +10 steps end at 100 and six -10 steps at 0. -/
theorem AdjustVolume_clamps_witness :
    ((AdjustVolume SocatOutcome.done (-20) (State.init [])).1.currentVol
        = (if (State.init []).currentVol + (-20) < 0 then 0
            else if (State.init []).currentVol + (-20) > 100 then 100
            else (State.init []).currentVol + (-20)) ∧
      (AdjustVolume SocatOutcome.done (-20) (State.init [])).1.currentVol
        = max 0 (min 100 ((State.init []).currentVol + (-20))) ∧
      (AdjustVolume SocatOutcome.done (-20) (State.init [])).1.commands
        = (State.init []).commands
          ++ [volumeCommand (AdjustVolume SocatOutcome.done (-20) (State.init [])).1.currentVol] ∧
      (∃ payload, (AdjustVolume SocatOutcome.done (-20) (State.init [])).1.commands
          = (State.init []).commands ++ [payload] ∧
        payloadLevel payload
          = some (AdjustVolume SocatOutcome.done (-20) (State.init [])).1.currentVol.toNat ∧
        ((AdjustVolume SocatOutcome.done (-20) (State.init [])).1.currentVol.toNat : Int)
          = (AdjustVolume SocatOutcome.done (-20) (State.init [])).1.currentVol) ∧
      ((State.init []).currentVol = 50 →
        (adjustCalls 10 (List.replicate 6 (SocatOutcome.startError "no socat"))
            (State.init [])).currentVol
          = min 100 (50 + 10 * ((List.replicate 6 (SocatOutcome.startError "no socat")).length : Int)) ∧
        (adjustCalls (-10) (List.replicate 6 (SocatOutcome.startError "no socat"))
            (State.init [])).currentVol
          = max 0 (50 - 10 * ((List.replicate 6 (SocatOutcome.startError "no socat")).length : Int)))) ∧
      (AdjustVolume SocatOutcome.done (-20) (State.init [])).1.currentVol = 30 ∧
      (AdjustVolume SocatOutcome.done (-20) (State.init [])).1.commands
        = ["\x7b\"command\": [\"set_property\", \"volume\", 30]\x7d"] ∧
      (AdjustVolume SocatOutcome.done (-20) (State.init [])).1.ipc
        = ["\x7b\"command\": [\"set_property\", \"volume\", 30]\x7d\n"] ∧
      payloadLevel "\x7b\"command\": [\"set_property\", \"volume\", 30]\x7d" = some 30 ∧
      (AdjustVolume SocatOutcome.done 60 (State.init [])).1.currentVol = 100 ∧
      (AdjustVolume SocatOutcome.done 60 (State.init [])).1.commands
        = ["\x7b\"command\": [\"set_property\", \"volume\", 100]\x7d"] ∧
      (AdjustVolume SocatOutcome.done (-60) (State.init [])).1.commands
        = ["\x7b\"command\": [\"set_property\", \"volume\", 0]\x7d"] ∧
      (adjustCalls 10 (List.replicate 6 (SocatOutcome.startError "no socat"))
        (State.init [])).currentVol = 100 ∧
      (adjustCalls (-10) (List.replicate 6 (SocatOutcome.startError "no socat"))
        (State.init [])).currentVol = 0 :=
  ⟨AdjustVolume_clamps SocatOutcome.done (-20) (State.init [])
      (List.replicate 6 (SocatOutcome.startError "no socat"))
      (by decide) (by decide) (by decide) (by decide),
    by decide, by decide, by decide, by decide, by decide, by decide, by decide, by decide,
    by decide⟩

/-! ## The player process -/

/-- C6, as stated, fails: from a state with one live and held process, a
StartMPV whose spawn fails ends with no live process and no process held. -/
theorem StartMPV_one_live_counterexample :
    playingState.live = [(1, mpvArgs "u1")] ∧
      playingState.mpvCmd = some { Args := mpvArgs "u1", Process := some 1 } ∧
      (StartMPV (some "mpv not found") "u2" playingState).1.live = [] ∧
      (StartMPV (some "mpv not found") "u2" playingState).1.mpvCmd
        = some { Args := mpvArgs "u2", Process := none } := by
  decide

/-- C6, amended: from a state in which exactly one process is live and held,
StartMPV(url) with a spawn that succeeds returns nil and ends with exactly one
live process, playing url and held in the handle; with a spawn that fails it
returns the launch error and ends with no live process and no process held. -/
theorem StartMPV_one_live (s : State) (url : String) (pid : Nat) (args args' : List String)
    (hlive : s.live = [(pid, args)])
    (hheld : s.mpvCmd = some { Args := args', Process := some pid }) :
    ((StartMPV none url s).2 = none ∧
        ∃ pid', (StartMPV none url s).1.live = [(pid', mpvArgs url)] ∧
          (StartMPV none url s).1.mpvCmd = some { Args := mpvArgs url, Process := some pid' }) ∧
      (∀ err,
        (StartMPV (some err) url s).2 = some ("failed to start mpv: " ++ err) ∧
        (StartMPV (some err) url s).1.live = [] ∧
        (StartMPV (some err) url s).1.mpvCmd = some { Args := mpvArgs url, Process := none }) ∧
      mpvArgs url
        = ["mpv", "--no-video", "--idle=yes", "--input-ipc-server=/tmp/mpv-socket", url] := by
  refine ⟨?_, ?_, rfl⟩
  · refine ⟨?_, freshPid [], ?_, ?_⟩ <;>
      simp [StartMPV, hheld, hlive, State.kill, State.logLine]
  · intro err
    refine ⟨?_, ?_, ?_⟩ <;>
      simp [StartMPV, hheld, hlive, State.kill, State.logLine]

/-- Witness of amended C6: the state with pid 1 playing u1, restarted on u2. -/
theorem StartMPV_one_live_witness :
    ((StartMPV none "u2" playingState).2 = none ∧
        ∃ pid', (StartMPV none "u2" playingState).1.live = [(pid', mpvArgs "u2")] ∧
          (StartMPV none "u2" playingState).1.mpvCmd
            = some { Args := mpvArgs "u2", Process := some pid' }) ∧
      (∀ err,
        (StartMPV (some err) "u2" playingState).2 = some ("failed to start mpv: " ++ err) ∧
        (StartMPV (some err) "u2" playingState).1.live = [] ∧
        (StartMPV (some err) "u2" playingState).1.mpvCmd
          = some { Args := mpvArgs "u2", Process := none }) ∧
      mpvArgs "u2"
        = ["mpv", "--no-video", "--idle=yes", "--input-ipc-server=/tmp/mpv-socket", "u2"] :=
  StartMPV_one_live playingState "u2" 1 (mpvArgs "u1") (mpvArgs "u1") rfl rfl

end RadioServer
